import Mathlib

/-!
Shallow embedding of `alerta_oficial.py` (Site Profitability Reconciler).

The script builds one multi-stage SQL query (`final_sql`) over two tables,
`gads_costs` (cost events) and `gam_impressions` (revenue events), then
post-processes the resulting data frame (site-0 filter, rounding), writes a
CSV artifact and optionally posts a Discord alert.

We model the tables as Lean lists of records, timestamps as integer seconds,
calendar dates as integer day numbers, and monetary amounts as rationals.
`toTimeZone(toDateTime(ts), 'America/Sao_Paulo')` shifts a timestamp by a
fixed offset; the shift is strictly monotone and injective, so maxima,
equality joins and comparisons on the converted value coincide with those on
the raw value, and only the derived calendar day (`toDate` of the converted
value) needs the offset.  Grouped subqueries (`GROUP BY site_id`) produce at
most one row per site, so a `LEFT JOIN` against them is modelled as a
per-site `Option`-valued lookup.
-/

namespace Alertas

/-- Seconds offset of America/Sao_Paulo relative to UTC (UTC-3). -/
def TZ_OFFSET : Int := -10800

/-- Calendar day (day number) of a UTC timestamp in the configured zone:
models `toDate(toTimeZone(toDateTime(t), TZ))`. -/
def spDay (t : Int) : Int := Int.fdiv (t + TZ_OFFSET) 86400

/-- Script configuration constant `REVENUE_DIVISOR = 1_000_000.0`. -/
def REVENUE_DIVISOR : ℚ := 1000000

/-- Script configuration constant `COST_DIVISOR = 1.0`. -/
def COST_DIVISOR : ℚ := 1

/-- Script configuration constant `MAX_REVENUE = 1.0`. -/
def MAX_REVENUE : ℚ := 1

/-- Script configuration constant `LOOKBACK_DAYS = 1`. -/
def LOOKBACK_DAYS : Int := 1

/-- Script configuration constant `FILTER_SITE_ID0 = True`. -/
def FILTER_SITE_ID0 : Bool := true

/-- One row of the cost table `gads_costs`. -/
structure CostRecord where
  site_id : Int
  timestamp : Int
  metrics_cost : ℚ
deriving DecidableEq

/-- One row of the revenue table `gam_impressions`.  The table carries both a
`date` column (used by the revenue-side `WHERE toDate(date) = ...` filters)
and a `timestamp` column. -/
structure RevenueRecord where
  site_id : Int
  date : Int
  timestamp : Int
  domain : String
  ad_exchange_line_item_level_revenue : ℚ
deriving DecidableEq

/-- SQL `max` aggregate over a (possibly empty) group of integers. -/
def listMax : List Int → Option Int
  | [] => none
  | x :: xs => some (xs.foldl max x)

/-- SQL `argMax(val, key)` aggregate, reduced to selecting a row attaining
the maximum `key` (the caller projects out the `val` column).  ClickHouse
leaves the tie-break unspecified; this model keeps the earliest row among
those attaining the maximum. -/
def argMaxBy {α : Type} (key : α → Int) : List α → Option α
  | [] => none
  | x :: xs =>
    match argMaxBy key xs with
    | none => some x
    | some m => if key x < key m then some m else some x

/-- Date computation in `main`: `yday_sp = today - 1 day`. -/
def yesterdayOf (today : Int) : Int := today - 1

/-- Date computation in `main`: `start_lb = today - LOOKBACK_DAYS`. -/
def lookbackStart (today lookbackDays : Int) : Int := today - lookbackDays

/-- Cost rows of one site on the reporting date: the `FROM ... WHERE
toDate(toTimeZone(toDateTime(timestamp), TZ)) = toDate(yday)` selection of
`cost_latest_ts_sql` / `cost_sites`, restricted to one `GROUP BY` group. -/
def costSiteRecs (costs : List CostRecord) (yday sid : Int) : List CostRecord :=
  costs.filter (fun c => decide (spDay c.timestamp = yday ∧ c.site_id = sid))

/-- `cost_latest_ts_sql`: per site, the maximum timestamp among that site's
cost rows on the reporting date. -/
def ts_cost_latest_sp (costs : List CostRecord) (yday sid : Int) : Option Int :=
  listMax ((costSiteRecs costs yday sid).map (·.timestamp))

/-- The `cost_latest` aggregate of the `cost_sites` CTE: the inner join on
`site_id` and on timestamp equality with `ts_cost_latest_sp` restricts the
sum to rows sharing the site's latest same-date timestamp. -/
def cost_latest (costs : List CostRecord) (yday sid : Int) : ℚ :=
  match ts_cost_latest_sp costs yday sid with
  | none => 0
  | some t =>
    (((costSiteRecs costs yday sid).filter (fun c => decide (c.timestamp = t))).map
      (·.metrics_cost)).sum / COST_DIVISOR

/-- Distinct keys in first-appearance order: models the row set produced by
`GROUP BY site_id`. -/
def dedupKeys : List Int → List Int → List Int
  | [], _ => []
  | x :: xs, seen => if x ∈ seen then dedupKeys xs seen else x :: dedupKeys xs (x :: seen)

/-- The `cost_sites` CTE: one `(site_id, cost_latest)` row per site having
cost rows on the reporting date, kept only when `HAVING cost_latest > 0`. -/
def cost_sites (costs : List CostRecord) (yday : Int) : List (Int × ℚ) :=
  (dedupKeys ((costs.filter (fun c => decide (spDay c.timestamp = yday))).map (·.site_id)) []).filterMap
    (fun sid =>
      if 0 < cost_latest costs yday sid then some (sid, cost_latest costs yday sid) else none)

/-- Revenue rows of one site on the reporting date: the `WHERE toDate(date) =
toDate(yday)` selection of `rev_latest_ts_sql` / `revenue_sites`, restricted
to one `GROUP BY` group. -/
def revSiteRecs (revs : List RevenueRecord) (yday sid : Int) : List RevenueRecord :=
  revs.filter (fun r => decide (r.date = yday ∧ r.site_id = sid))

/-- `rev_latest_ts_sql`: per site, the maximum timestamp among that site's
revenue rows on the reporting date. -/
def ts_rev_latest_sp (revs : List RevenueRecord) (yday sid : Int) : Option Int :=
  listMax ((revSiteRecs revs yday sid).map (·.timestamp))

/-- The `revenue_sites` CTE, as a per-site lookup: `none` when the site has
no revenue row on the reporting date (no group, hence no row to join), else
`(domain_yday, revenue_latest)` where the inner join with `rev_latest_ts_sql`
restricts both aggregates to rows sharing the latest same-date timestamp. -/
def revenue_site (revs : List RevenueRecord) (yday sid : Int) : Option (String × ℚ) :=
  match ts_rev_latest_sp revs yday sid with
  | none => none
  | some t =>
    let latest := (revSiteRecs revs yday sid).filter (fun r => decide (r.timestamp = t))
    match argMaxBy (·.timestamp) latest with
    | none => none
    | some m =>
      some (m.domain, ((latest.map (·.ad_exchange_line_item_level_revenue)).sum) / REVENUE_DIVISOR)

/-- `domain_fallback_sql`, as a per-site lookup: `argMax(domain, timestamp)`
over revenue rows with `toDate(date)` between `start_lb` and `yday`
inclusive. -/
def domain_recent (revs : List RevenueRecord) (startLb yday sid : Int) : Option String :=
  (argMaxBy (·.timestamp)
    (revs.filter (fun r => decide (r.site_id = sid ∧ startLb ≤ r.date ∧ r.date ≤ yday)))).map
    (·.domain)

/-- One row of the final result set (`SELECT site_id, domain, cost, revenue`). -/
structure Row where
  site_id : Int
  domain : String
  cost : ℚ
  revenue : ℚ
deriving DecidableEq

/-- One row of the `joined` / `with_domain` CTEs, built from a `cost_sites`
row: a `LEFT JOIN` looks up `revenue_sites` (`coalesce(rs.revenue_latest,
0)`) and the domain fallback (`coalesce(j.domain_yday, df.domain_recent,
'unknown')`). -/
def buildRow (revs : List RevenueRecord) (yday startLb : Int) (sc : Int × ℚ) : Row :=
  let rs := revenue_site revs yday sc.1
  { site_id := sc.1
    domain := (rs.map Prod.fst).getD ((domain_recent revs startLb yday sc.1).getD "unknown")
    cost := sc.2
    revenue := (rs.map Prod.snd).getD 0 }

/-- The `joined` and `with_domain` CTEs: `cost_sites` is the anchor set and
each of its rows is extended with the revenue and domain lookups. -/
def with_domain (costs : List CostRecord) (revs : List RevenueRecord)
    (yday startLb : Int) : List Row :=
  (cost_sites costs yday).map (buildRow revs yday startLb)

/-- The final `WHERE` clause: `cost > 0 AND revenue <= MAX_REVENUE` and,
when `FILTER_SITE_ID0` is set, `AND site_id <> 0`. -/
def keepRow (maxRev : ℚ) (filter0 : Bool) (r : Row) : Bool :=
  decide (0 < r.cost) && decide (r.revenue ≤ maxRev) && (!filter0 || decide (r.site_id ≠ 0))

/-- The final `ORDER BY revenue ASC, cost DESC` comparison. -/
def rowLE (a b : Row) : Prop :=
  a.revenue < b.revenue ∨ (a.revenue = b.revenue ∧ b.cost ≤ a.cost)

instance : DecidableRel rowLE := fun a b => by
  unfold rowLE
  infer_instance

instance : IsTotal Row rowLE := by
  constructor
  intro a b
  unfold rowLE
  rcases lt_trichotomy a.revenue b.revenue with h | h | h
  · exact Or.inl (Or.inl h)
  · rcases le_total a.cost b.cost with hc | hc
    · exact Or.inr (Or.inr ⟨h.symm, hc⟩)
    · exact Or.inl (Or.inr ⟨h, hc⟩)
  · exact Or.inr (Or.inl h)

instance : IsTrans Row rowLE := by
  constructor
  intro a b c hab hbc
  unfold rowLE at hab hbc ⊢
  rcases hab with h1 | ⟨h1, h1c⟩
  · rcases hbc with h2 | ⟨h2, h2c⟩
    · exact Or.inl (h1.trans h2)
    · exact Or.inl (by rw [← h2]; exact h1)
  · rcases hbc with h2 | ⟨h2, h2c⟩
    · exact Or.inl (by rw [h1]; exact h2)
    · exact Or.inr ⟨h1.trans h2, h2c.trans h1c⟩

/-- The result set of `final_sql`: filter the joined rows and sort them by
`revenue ASC, cost DESC`. -/
def finalRows (costs : List CostRecord) (revs : List RevenueRecord)
    (yday startLb : Int) (maxRev : ℚ) (filter0 : Bool) : List Row :=
  List.insertionSort rowLE ((with_domain costs revs yday startLb).filter (keepRow maxRev filter0))

/-- The whole query as `main` runs it: reporting date is yesterday relative
to `today`, lookback start is `today - LOOKBACK_DAYS`, with the script's
configured threshold and site-0 exclusion. -/
def runReport (costs : List CostRecord) (revs : List RevenueRecord) (today : Int) : List Row :=
  finalRows costs revs (yesterdayOf today) (lookbackStart today LOOKBACK_DAYS)
    MAX_REVENUE FILTER_SITE_ID0

/-- Round-half-to-even to an integer, the rounding used by
`pandas.Series.round` (numpy banker's rounding). -/
def roundHE (q : ℚ) : ℤ :=
  if q - ⌊q⌋ < 1/2 then ⌊q⌋
  else if 1/2 < q - ⌊q⌋ then ⌊q⌋ + 1
  else if ⌊q⌋ % 2 = 0 then ⌊q⌋ else ⌊q⌋ + 1

/-- Round-half-to-even to `digits` decimal places. -/
def roundTo (digits : Nat) (q : ℚ) : ℚ := (roundHE (q * 10 ^ digits) : ℚ) / 10 ^ digits

/-- The rounding step of `main`: `cost` to 2 decimal places, `revenue` to 6. -/
def roundRow (r : Row) : Row := { r with cost := roundTo 2 r.cost, revenue := roundTo 6 r.revenue }

/-- Post-processing in `main`: when the data frame is non-empty, drop
`site_id == 0` rows (when configured) and round the two amount columns. -/
def postProcess (filter0 : Bool) (rows : List Row) : List Row :=
  if rows.isEmpty then rows
  else ((if filter0 then rows.filter (fun r => decide (r.site_id ≠ 0)) else rows).map roundRow)

/-- Header line of the CSV artifact. -/
def csvHeader : String := "site_id,domain,cost,revenue"

/-- One CSV data line. -/
def rowLine (r : Row) : String :=
  toString r.site_id ++ "," ++ r.domain ++ "," ++ toString r.cost ++ "," ++ toString r.revenue

/-- The CSV artifact `main` always writes: header line plus one line per row
of the (post-processed) data frame. -/
def csvArtifact (rows : List Row) : List String := csvHeader :: rows.map rowLine

/-- Outcome of the HTTP POST to the webhook, as seen by the caller. -/
inductive HttpResult
  | ok
  | err (msg : String)
deriving DecidableEq

/-- What `send_discord_alert` did. -/
inductive AlertOutcome
  | notConfigured
  | sent
  | failedLogged (msg : String)
deriving DecidableEq

/-- Model of `requests.post(...).raise_for_status()`: raises (returns
`.error`) exactly when the HTTP call fails. -/
def requests_post (response : HttpResult) : Except String Unit :=
  match response with
  | .ok => .ok ()
  | .err m => .error m

/-- Model of `send_discord_alert`: a missing or empty webhook URL is logged
and the function returns; an HTTP failure is caught by the `try/except` and
logged.  The `Except` layer records whether an exception escapes. -/
def send_discord_alert (webhook_url : Option String) (response : HttpResult) :
    Except String AlertOutcome :=
  if (webhook_url.getD "") = "" then .ok .notConfigured
  else
    match requests_post response with
    | .ok _ => .ok .sent
    | .error m => .ok (.failedLogged m)

/-- What a finished run produced: the CSV artifact and the alert outcome
(`none` when no alert was attempted because the data frame was empty). -/
structure RunOutput where
  csv : List String
  alert : Option AlertOutcome
deriving DecidableEq

/-- Tail of `main` after the query: post-process the rows, always write the
CSV, and attempt the alert only when the data frame is non-empty. -/
def finishRun (rows : List Row) (webhook_url : Option String) (response : HttpResult) :
    Except String RunOutput :=
  let df := postProcess FILTER_SITE_ID0 rows
  if df.isEmpty then .ok { csv := csvArtifact df, alert := none }
  else
    match send_discord_alert webhook_url response with
    | .ok o => .ok { csv := csvArtifact df, alert := some o }
    | .error m => .error m

/-- Statement of the spec's claimed cost rule, for comparison with the code:
the unconditional sum of `metrics_cost` over ALL of a site's cost rows whose
timestamp falls on the reporting date, divided by the cost divisor. -/
def claimedFullDayCost (costs : List CostRecord) (yday sid : Int) : ℚ :=
  ((costs.filter (fun c => decide (spDay c.timestamp = yday ∧ c.site_id = sid))).map
    (·.metrics_cost)).sum / COST_DIVISOR

/-- Statement of the spec's claimed fallback window, for comparison with the
code: scan revenue rows dated between `report_date - lookback_days` and
`report_date` inclusive and take the domain at the maximum timestamp. -/
def claimedFallbackWindowDomain (revs : List RevenueRecord)
    (yday lookbackDays sid : Int) : Option String :=
  (argMaxBy (·.timestamp)
    (revs.filter (fun r =>
      decide (r.site_id = sid ∧ yday - lookbackDays ≤ r.date ∧ r.date ≤ yday)))).map
    (·.domain)

/-- Example cost table: one site with two records on the reporting date at
distinct timestamps (`spDay 20000 = spDay 30000 = 0`). -/
def cexCostsTwoTs : List CostRecord := [⟨1, 20000, 5⟩, ⟨1, 30000, 7⟩]

/-- Example revenue table: one record dated the day before the reporting
date. -/
def cexRevsPriorDay : List RevenueRecord := [⟨1, -1, -80000, "olddomain", 0⟩]

/-- Example cost table: a single record whose cost sum is 0.004, positive
but rounding to 0.00 at two decimal places. -/
def cexCostsTiny : List CostRecord := [⟨1, 20000, 4/1000⟩]

/-- Example cost table: a single cost record of 5 on the reporting date. -/
def sampleCosts : List CostRecord := [⟨1, 20000, 5⟩]

/-- Example revenue table whose latest-timestamp sum is exactly 1.0, the
default threshold. -/
def sampleRevsBoundary : List RevenueRecord := [⟨1, 0, 100, "a", 1000000⟩]

/-- Example revenue table with an early record and two records sharing the
latest timestamp; the latest-timestamp sum is 0.5. -/
def sampleRevsLatest : List RevenueRecord :=
  [⟨1, 0, 100, "a", 200000⟩, ⟨1, 0, 200, "b", 200000⟩, ⟨1, 0, 200, "c", 300000⟩]

section Lemmas

/-- A left fold of `max` produces its seed or a list element. -/
lemma foldl_max_mem (xs : List Int) (x : Int) : xs.foldl max x = x ∨ xs.foldl max x ∈ xs := by
  induction xs generalizing x with
  | nil => exact Or.inl rfl
  | cons y ys ih =>
    rw [List.foldl_cons]
    rcases ih (max x y) with h | h
    · rcases max_choice x y with hm | hm
      · exact Or.inl (by rw [h, hm])
      · exact Or.inr (by rw [h, hm]; exact List.mem_cons_self y ys)
    · exact Or.inr (List.mem_cons_of_mem y h)

/-- A left fold of `max` bounds its seed and every list element. -/
lemma le_foldl_max (xs : List Int) (x : Int) :
    x ≤ xs.foldl max x ∧ ∀ y ∈ xs, y ≤ xs.foldl max x := by
  induction xs generalizing x with
  | nil => exact ⟨le_refl x, by simp⟩
  | cons z zs ih =>
    obtain ⟨h1, h2⟩ := ih (max x z)
    refine ⟨le_trans (le_max_left x z) h1, ?_⟩
    intro y hy
    rcases List.mem_cons.mp hy with rfl | hy
    · exact le_trans (le_max_right x y) h1
    · exact h2 y hy

/-- The SQL `max` of a group is an element of the group. -/
lemma listMax_mem {l : List Int} {t : Int} (h : listMax l = some t) : t ∈ l := by
  cases l with
  | nil => simp [listMax] at h
  | cons x xs =>
    simp only [listMax, Option.some.injEq] at h
    rcases foldl_max_mem xs x with h1 | h1
    · rw [← h, h1]
      exact List.mem_cons_self x xs
    · rw [← h]
      exact List.mem_cons_of_mem x h1

/-- The SQL `max` of a group bounds every element of the group. -/
lemma listMax_le {l : List Int} {t : Int} (h : listMax l = some t) : ∀ y ∈ l, y ≤ t := by
  cases l with
  | nil => simp [listMax] at h
  | cons x xs =>
    simp only [listMax, Option.some.injEq] at h
    intro y hy
    obtain ⟨h1, h2⟩ := le_foldl_max xs x
    rcases List.mem_cons.mp hy with rfl | hy'
    · rw [← h]
      exact h1
    · rw [← h]
      exact h2 y hy'

/-- The SQL `max` of a group is `none` exactly for the empty group. -/
lemma listMax_eq_none {l : List Int} : listMax l = none ↔ l = [] := by
  cases l <;> simp [listMax]

/-- The SQL `argMax` of a group is `none` exactly for the empty group. -/
lemma argMaxBy_eq_none {α : Type} {key : α → Int} {l : List α} :
    argMaxBy key l = none ↔ l = [] := by
  cases l with
  | nil => simp [argMaxBy]
  | cons x xs =>
    simp only [argMaxBy, List.cons_ne_nil, iff_false]
    intro h
    cases hA : argMaxBy key xs
    · simp only [hA] at h
      exact Option.some_ne_none x h
    · simp only [hA] at h
      split at h <;> simp at h

/-- The SQL `argMax` selects a row attaining the maximum key. -/
lemma argMaxBy_spec {α : Type} {key : α → Int} : ∀ {l : List α} {m : α},
    argMaxBy key l = some m → m ∈ l ∧ ∀ y ∈ l, key y ≤ key m := by
  intro l
  induction l with
  | nil =>
    intro m h
    simp [argMaxBy] at h
  | cons x xs ih =>
    intro m h
    simp only [argMaxBy] at h
    cases hA : argMaxBy key xs
    · simp only [hA, Option.some.injEq] at h
      have hxs : xs = [] := argMaxBy_eq_none.mp hA
      subst hxs
      refine ⟨by rw [← h]; exact List.mem_cons_self x [], ?_⟩
      intro y hy
      rcases List.mem_cons.mp hy with rfl | hy
      · rw [← h]
      · simp at hy
    · rename_i m0
      simp only [hA] at h
      obtain ⟨hm0_mem, hm0_max⟩ := ih hA
      split at h
      · rename_i hlt
        simp only [Option.some.injEq] at h
        subst h
        refine ⟨List.mem_cons_of_mem x hm0_mem, ?_⟩
        intro y hy
        rcases List.mem_cons.mp hy with rfl | hy
        · exact le_of_lt hlt
        · exact hm0_max y hy
      · rename_i hge
        push_neg at hge
        simp only [Option.some.injEq] at h
        subst h
        refine ⟨List.mem_cons_self x xs, ?_⟩
        intro y hy
        rcases List.mem_cons.mp hy with rfl | hy
        · exact le_refl _
        · exact le_trans (hm0_max y hy) hge

/-- Membership in the `GROUP BY` key list. -/
lemma mem_dedupKeys {l seen : List Int} {x : Int} :
    x ∈ dedupKeys l seen ↔ x ∈ l ∧ x ∉ seen := by
  induction l generalizing seen with
  | nil => simp [dedupKeys]
  | cons y ys ih =>
    simp only [dedupKeys]
    by_cases hy : y ∈ seen
    · rw [if_pos hy, ih]
      constructor
      · rintro ⟨h1, h2⟩
        exact ⟨List.mem_cons_of_mem y h1, h2⟩
      · rintro ⟨h1, h2⟩
        rcases List.mem_cons.mp h1 with rfl | h1
        · exact absurd hy h2
        · exact ⟨h1, h2⟩
    · rw [if_neg hy]
      constructor
      · intro h
        rcases List.mem_cons.mp h with rfl | h
        · exact ⟨List.mem_cons_self x ys, hy⟩
        · obtain ⟨h1, h2⟩ := ih.mp h
          exact ⟨List.mem_cons_of_mem y h1, fun hs => h2 (List.mem_cons_of_mem y hs)⟩
      · rintro ⟨h1, h2⟩
        rcases List.mem_cons.mp h1 with rfl | h1
        · exact List.mem_cons_self x _
        · by_cases hxy : x = y
          · subst hxy
            exact List.mem_cons_self x _
          · exact List.mem_cons_of_mem y (ih.mpr ⟨h1, by
              intro hs
              rcases List.mem_cons.mp hs with h | h
              · exact hxy h
              · exact h2 h⟩)

/-- The final `WHERE` clause, read back as a proposition. -/
lemma keepRow_iff {maxRev : ℚ} {f0 : Bool} {r : Row} :
    keepRow maxRev f0 r = true ↔
      0 < r.cost ∧ r.revenue ≤ maxRev ∧ (f0 = true → r.site_id ≠ 0) := by
  cases f0 <;> simp [keepRow, and_assoc]

/-- Membership in the `cost_sites` CTE: a site row is present exactly when
the site has a cost record on the reporting date and its latest-timestamp
cost sum is positive. -/
lemma mem_cost_sites {costs : List CostRecord} {yday sid : Int} {c : ℚ} :
    (sid, c) ∈ cost_sites costs yday ↔
      (∃ x ∈ costs, spDay x.timestamp = yday ∧ x.site_id = sid) ∧
        c = cost_latest costs yday sid ∧ 0 < c := by
  simp only [cost_sites, List.mem_filterMap]
  constructor
  · rintro ⟨a, ha, hfa⟩
    split at hfa
    · rename_i hpos
      simp only [Option.some.injEq, Prod.mk.injEq] at hfa
      obtain ⟨rfl, rfl⟩ := hfa
      obtain ⟨hmem, -⟩ := mem_dedupKeys.mp ha
      obtain ⟨x, hx_mem, hx_sid⟩ := List.mem_map.mp hmem
      obtain ⟨hx_costs, hx_day⟩ := List.mem_filter.mp hx_mem
      exact ⟨⟨x, hx_costs, by simpa using hx_day, hx_sid⟩, rfl, hpos⟩
    · exact absurd hfa (Option.noConfusion)
  · rintro ⟨⟨x, hx_costs, hx_day, hx_sid⟩, rfl, hpos⟩
    refine ⟨sid, ?_, ?_⟩
    · exact mem_dedupKeys.mpr
        ⟨List.mem_map.mpr ⟨x, List.mem_filter.mpr ⟨hx_costs, by simpa using hx_day⟩, hx_sid⟩,
          List.not_mem_nil sid⟩
    · rw [if_pos hpos]

/-- Membership in the `with_domain` CTE. -/
lemma mem_with_domain {costs : List CostRecord} {revs : List RevenueRecord}
    {yday startLb : Int} {r : Row} :
    r ∈ with_domain costs revs yday startLb ↔
      ∃ p ∈ cost_sites costs yday, buildRow revs yday startLb p = r := by
  simp [with_domain, List.mem_map]

/-- Membership in the final result set: the sort permutes, the `WHERE`
clause filters. -/
lemma mem_finalRows {costs : List CostRecord} {revs : List RevenueRecord}
    {yday startLb : Int} {maxRev : ℚ} {f0 : Bool} {r : Row} :
    r ∈ finalRows costs revs yday startLb maxRev f0 ↔
      r ∈ with_domain costs revs yday startLb ∧ keepRow maxRev f0 r = true := by
  simp [finalRows, List.mem_insertionSort, List.mem_filter]

/-- Group selection for one site on the reporting date is empty exactly when
the site has no revenue record dated that day. -/
lemma revSiteRecs_eq_nil {revs : List RevenueRecord} {yday sid : Int} :
    revSiteRecs revs yday sid = [] ↔ ∀ x ∈ revs, ¬(x.date = yday ∧ x.site_id = sid) := by
  simp [revSiteRecs, List.filter_eq_nil_iff]

/-- The `revenue_sites` lookup misses exactly when the site has no revenue
record on the reporting date. -/
lemma revenue_site_eq_none {revs : List RevenueRecord} {yday sid : Int} :
    revenue_site revs yday sid = none ↔ revSiteRecs revs yday sid = [] := by
  constructor
  · intro h
    by_contra hne
    have hts : ts_rev_latest_sp revs yday sid ≠ none := by
      rw [Ne, ts_rev_latest_sp, listMax_eq_none, List.map_eq_nil_iff]
      exact hne
    obtain ⟨t, ht⟩ := Option.ne_none_iff_exists'.mp hts
    have htmem : t ∈ (revSiteRecs revs yday sid).map (·.timestamp) := by
      have := ht
      rw [ts_rev_latest_sp] at this
      exact listMax_mem this
    obtain ⟨y, hy_mem, hy_ts⟩ := List.mem_map.mp htmem
    have hlat : y ∈ (revSiteRecs revs yday sid).filter (fun r => decide (r.timestamp = t)) :=
      List.mem_filter.mpr ⟨hy_mem, by simp [hy_ts]⟩
    have harg : argMaxBy (·.timestamp)
        ((revSiteRecs revs yday sid).filter (fun r => decide (r.timestamp = t))) ≠ none := by
      rw [Ne, argMaxBy_eq_none]
      exact List.ne_nil_of_mem hlat
    obtain ⟨m, hm⟩ := Option.ne_none_iff_exists'.mp harg
    simp only [revenue_site, ht, hm] at h
    exact Option.noConfusion h
  · intro h
    simp [revenue_site, ts_rev_latest_sp, h, listMax]

/-- The `revenue_sites` lookup, characterized: it reports the revenue sum
over exactly the rows sharing the maximum same-date timestamp, and a domain
observed at that maximum timestamp. -/
lemma revenue_site_eq_some {revs : List RevenueRecord} {yday sid : Int} {d : String} {v : ℚ}
    (h : revenue_site revs yday sid = some (d, v)) :
    ∃ t, (∃ x ∈ revSiteRecs revs yday sid, x.timestamp = t ∧ x.domain = d) ∧
      (∀ y ∈ revSiteRecs revs yday sid, y.timestamp ≤ t) ∧
      v = (((revSiteRecs revs yday sid).filter (fun r => decide (r.timestamp = t))).map
        (·.ad_exchange_line_item_level_revenue)).sum / REVENUE_DIVISOR := by
  cases ht : ts_rev_latest_sp revs yday sid with
  | none =>
    simp only [revenue_site, ht] at h
    exact Option.noConfusion h
  | some t =>
    cases hm : argMaxBy (·.timestamp)
        ((revSiteRecs revs yday sid).filter (fun r => decide (r.timestamp = t))) with
    | none =>
      simp only [revenue_site, ht, hm] at h
      exact Option.noConfusion h
    | some m =>
      simp only [revenue_site, ht, hm, Option.some.injEq, Prod.mk.injEq] at h
      obtain ⟨hd, hv⟩ := h
      obtain ⟨hm_mem, -⟩ := argMaxBy_spec hm
      obtain ⟨hm_recs, hm_ts⟩ := List.mem_filter.mp hm_mem
      refine ⟨t, ⟨m, hm_recs, by simpa using hm_ts, hd⟩, ?_, hv.symm⟩
      intro y hy
      have := ht
      rw [ts_rev_latest_sp] at this
      exact listMax_le this _ (List.mem_map_of_mem _ hy)

/-- Merging the two cost-side filters (reporting-date selection and
latest-timestamp join) into one pass over the raw table. -/
lemma costSiteRecs_filter_ts (costs : List CostRecord) (yday sid t : Int) :
    (costSiteRecs costs yday sid).filter (fun c => decide (c.timestamp = t)) =
      costs.filter (fun c =>
        decide (spDay c.timestamp = yday ∧ c.site_id = sid ∧ c.timestamp = t)) := by
  simp only [costSiteRecs, List.filter_filter]
  apply List.filter_congr
  intro a _
  by_cases h1 : spDay a.timestamp = yday <;> by_cases h2 : a.site_id = sid <;>
    by_cases h3 : a.timestamp = t <;> simp [h1, h2, h3]

/-- Merging the two revenue-side filters (reporting-date selection and
latest-timestamp join) into one pass over the raw table. -/
lemma revSiteRecs_filter_ts (revs : List RevenueRecord) (yday sid t : Int) :
    (revSiteRecs revs yday sid).filter (fun r => decide (r.timestamp = t)) =
      revs.filter (fun r =>
        decide (r.date = yday ∧ r.site_id = sid ∧ r.timestamp = t)) := by
  simp only [revSiteRecs, List.filter_filter]
  apply List.filter_congr
  intro a _
  by_cases h1 : a.date = yday <;> by_cases h2 : a.site_id = sid <;>
    by_cases h3 : a.timestamp = t <;> simp [h1, h2, h3]

/-- Projection of the joined row: the site id comes from the cost anchor. -/
lemma buildRow_site_id (revs : List RevenueRecord) (yday startLb : Int) (p : Int × ℚ) :
    (buildRow revs yday startLb p).site_id = p.1 := rfl

/-- Projection of the joined row: the cost comes from the cost anchor. -/
lemma buildRow_cost (revs : List RevenueRecord) (yday startLb : Int) (p : Int × ℚ) :
    (buildRow revs yday startLb p).cost = p.2 := rfl

/-- Projection of the joined row: the revenue is the looked-up aggregate,
defaulted to 0 (`coalesce`). -/
lemma buildRow_revenue (revs : List RevenueRecord) (yday startLb : Int) (p : Int × ℚ) :
    (buildRow revs yday startLb p).revenue =
      ((revenue_site revs yday p.1).map Prod.snd).getD 0 := rfl

/-- Projection of the joined row: the domain is the `coalesce` chain. -/
lemma buildRow_domain (revs : List RevenueRecord) (yday startLb : Int) (p : Int × ℚ) :
    (buildRow revs yday startLb p).domain =
      ((revenue_site revs yday p.1).map Prod.fst).getD
        ((domain_recent revs startLb yday p.1).getD "unknown") := rfl

/-- Membership in one cost group. -/
lemma mem_costSiteRecs {costs : List CostRecord} {yday sid : Int} {x : CostRecord} :
    x ∈ costSiteRecs costs yday sid ↔ x ∈ costs ∧ spDay x.timestamp = yday ∧ x.site_id = sid := by
  simp [costSiteRecs, and_assoc]

/-- Membership in one revenue group. -/
lemma mem_revSiteRecs {revs : List RevenueRecord} {yday sid : Int} {x : RevenueRecord} :
    x ∈ revSiteRecs revs yday sid ↔ x ∈ revs ∧ x.date = yday ∧ x.site_id = sid := by
  simp [revSiteRecs, and_assoc]

/-- The `cost_latest` aggregate of a non-empty cost group, characterized:
there is a latest same-date timestamp, and the aggregate sums exactly the
rows carrying it. -/
lemma cost_latest_spec {costs : List CostRecord} {yday sid : Int}
    (hne : costSiteRecs costs yday sid ≠ []) :
    ∃ t, (∃ x ∈ costSiteRecs costs yday sid, x.timestamp = t) ∧
      (∀ y ∈ costSiteRecs costs yday sid, y.timestamp ≤ t) ∧
      cost_latest costs yday sid = (((costSiteRecs costs yday sid).filter
        (fun c => decide (c.timestamp = t))).map (·.metrics_cost)).sum / COST_DIVISOR := by
  have hts : ts_cost_latest_sp costs yday sid ≠ none := by
    rw [Ne, ts_cost_latest_sp, listMax_eq_none, List.map_eq_nil_iff]
    exact hne
  obtain ⟨t, ht⟩ := Option.ne_none_iff_exists'.mp hts
  have ht' := ht
  rw [ts_cost_latest_sp] at ht'
  refine ⟨t, ?_, ?_, ?_⟩
  · obtain ⟨x, hx, hxt⟩ := List.mem_map.mp (listMax_mem ht')
    exact ⟨x, hx, hxt⟩
  · intro y hy
    exact listMax_le ht' _ (List.mem_map_of_mem _ hy)
  · simp [cost_latest, ht]

/-- Post-processing is a filter (when configured) followed by an
element-wise rounding map; it never reorders rows. -/
lemma postProcess_eq_filter_map (rows : List Row) :
    postProcess true rows = (rows.filter (fun r => decide (r.site_id ≠ 0))).map roundRow := by
  cases rows with
  | nil => simp [postProcess]
  | cons x xs => simp [postProcess]

/-- Evaluation of the query on `cexCostsTwoTs`: only the record at the
latest timestamp (cost 7) is summed. -/
lemma eval_finalRows_twoTs :
    finalRows cexCostsTwoTs [] 0 0 1 true =
      [{ site_id := 1, domain := "unknown", cost := 7, revenue := 0 }] := by
  have h1 : spDay 20000 = 0 := by decide
  have h2 : spDay 30000 = 0 := by decide
  norm_num [finalRows, with_domain, cost_sites, cost_latest, ts_cost_latest_sp,
    costSiteRecs, revenue_site, ts_rev_latest_sp, revSiteRecs, domain_recent, argMaxBy,
    listMax, dedupKeys, keepRow, buildRow, h1, h2, COST_DIVISOR, REVENUE_DIVISOR,
    cexCostsTwoTs, List.insertionSort, List.orderedInsert, List.filter, List.filterMap]

/-- Evaluation of the query on `sampleCosts` and `sampleRevsLatest`: the
revenue is the latest-timestamp sum 0.5 and the domain comes from a row at
the latest timestamp. -/
lemma eval_finalRows_sampleLatest :
    finalRows sampleCosts sampleRevsLatest 0 0 1 true =
      [{ site_id := 1, domain := "b", cost := 5, revenue := 1/2 }] := by
  have h1 : spDay 20000 = 0 := by decide
  norm_num [finalRows, with_domain, cost_sites, cost_latest, ts_cost_latest_sp,
    costSiteRecs, revenue_site, ts_rev_latest_sp, revSiteRecs, domain_recent, argMaxBy,
    listMax, dedupKeys, keepRow, buildRow, h1, COST_DIVISOR, REVENUE_DIVISOR,
    sampleCosts, sampleRevsLatest, List.insertionSort, List.orderedInsert, List.filter,
    List.filterMap]

/-- Evaluation of the query on `sampleCosts` and `cexRevsPriorDay` with the
script's window bounds for `today = 1`: the prior-day revenue record is
outside the scanned window, so the domain falls through to `"unknown"`. -/
lemma eval_finalRows_priorDay :
    finalRows sampleCosts cexRevsPriorDay 0 0 1 true =
      [{ site_id := 1, domain := "unknown", cost := 5, revenue := 0 }] := by
  have h1 : spDay 20000 = 0 := by decide
  norm_num [finalRows, with_domain, cost_sites, cost_latest, ts_cost_latest_sp,
    costSiteRecs, revenue_site, ts_rev_latest_sp, revSiteRecs, domain_recent, argMaxBy,
    listMax, dedupKeys, keepRow, buildRow, h1, COST_DIVISOR, REVENUE_DIVISOR,
    sampleCosts, cexRevsPriorDay, List.insertionSort, List.orderedInsert, List.filter,
    List.filterMap]

/-- Evaluation of the query on `cexCostsTiny`: the 0.004 cost passes the
`cost > 0` filter unrounded. -/
lemma eval_finalRows_tiny :
    finalRows cexCostsTiny [] 0 0 1 true =
      [{ site_id := 1, domain := "unknown", cost := 1/250, revenue := 0 }] := by
  have h1 : spDay 20000 = 0 := by decide
  norm_num [finalRows, with_domain, cost_sites, cost_latest, ts_cost_latest_sp,
    costSiteRecs, revenue_site, ts_rev_latest_sp, revSiteRecs, domain_recent, argMaxBy,
    listMax, dedupKeys, keepRow, buildRow, h1, COST_DIVISOR, REVENUE_DIVISOR,
    cexCostsTiny, List.insertionSort, List.orderedInsert, List.filter, List.filterMap]

end Lemmas

section Claims

/-- C3: a `SiteDay` row appears in the final result iff it is a joined
(`with_domain`) row with `total_cost > 0`, `total_revenue <= maxRev`
(inclusive comparison, so revenue exactly at the threshold is kept) and,
when site-0 exclusion is enabled, `site_id ≠ 0`; moreover every emitted
row's site id is drawn from the cost aggregates, so no site absent from
`cost_sites` ever appears. -/
theorem final_filter_membership_iff (costs : List CostRecord) (revs : List RevenueRecord)
    (yday startLb : Int) (maxRev : ℚ) (f0 : Bool) (r : Row) :
    (r ∈ finalRows costs revs yday startLb maxRev f0 ↔
      r ∈ with_domain costs revs yday startLb ∧ 0 < r.cost ∧ r.revenue ≤ maxRev ∧
        (f0 = true → r.site_id ≠ 0)) ∧
    (r ∈ finalRows costs revs yday startLb maxRev f0 →
      r.site_id ∈ (cost_sites costs yday).map Prod.fst) := by
  constructor
  · rw [mem_finalRows, keepRow_iff]
  · intro hr
    obtain ⟨hw, -⟩ := mem_finalRows.mp hr
    obtain ⟨p, hp, hbuild⟩ := mem_with_domain.mp hw
    rw [← hbuild, buildRow_site_id]
    exact List.mem_map.mpr ⟨p, hp, rfl⟩

/-- Witness for C3 at a concrete input whose latest-timestamp revenue is
exactly the threshold 1.0: the row is included (inclusive comparison). -/
theorem final_filter_membership_iff_witness :
    ({ site_id := 1, domain := "a", cost := 5, revenue := 1 } : Row) ∈
      finalRows sampleCosts sampleRevsBoundary 0 0 1 true := by
  have h1 : spDay 20000 = 0 := by decide
  have hwd : with_domain sampleCosts sampleRevsBoundary 0 0 =
      [{ site_id := 1, domain := "a", cost := 5, revenue := 1 }] := by
    norm_num [with_domain, cost_sites, cost_latest, ts_cost_latest_sp, costSiteRecs,
      dedupKeys, buildRow, revenue_site, ts_rev_latest_sp, revSiteRecs, domain_recent,
      argMaxBy, listMax, h1, sampleCosts, sampleRevsBoundary, COST_DIVISOR,
      REVENUE_DIVISOR, List.filter, List.filterMap]
  exact ((final_filter_membership_iff sampleCosts sampleRevsBoundary 0 0 1 true _).1).mpr
    ⟨by rw [hwd]; exact List.mem_singleton.mpr rfl, by norm_num, by norm_num, by decide⟩

/-- C4: a site present in the cost aggregates with no revenue record on the
reporting date still yields an output row, with `total_revenue = 0` (given
that the row is not otherwise excluded: nonzero site id when exclusion is
on, and a non-negative threshold so that revenue 0 passes the filter). -/
theorem cost_site_without_revenue_appears (costs : List CostRecord) (revs : List RevenueRecord)
    (yday startLb : Int) (maxRev : ℚ) (f0 : Bool) (sid : Int) (c : ℚ)
    (hc : (sid, c) ∈ cost_sites costs yday)
    (hno : ∀ x ∈ revs, ¬(x.date = yday ∧ x.site_id = sid))
    (h0 : f0 = true → sid ≠ 0)
    (hm : 0 ≤ maxRev) :
    ∃ r ∈ finalRows costs revs yday startLb maxRev f0,
      r.site_id = sid ∧ r.cost = c ∧ r.revenue = 0 := by
  have hnone : revenue_site revs yday sid = none :=
    revenue_site_eq_none.mpr (revSiteRecs_eq_nil.mpr hno)
  have hrev : (buildRow revs yday startLb (sid, c)).revenue = 0 := by
    rw [buildRow_revenue]
    simp [hnone]
  have hpos : 0 < c := (mem_cost_sites.mp hc).2.2
  refine ⟨buildRow revs yday startLb (sid, c), ?_, rfl, rfl, hrev⟩
  rw [mem_finalRows]
  refine ⟨mem_with_domain.mpr ⟨(sid, c), hc, rfl⟩, ?_⟩
  rw [keepRow_iff, buildRow_cost, hrev]
  exact ⟨hpos, hm, fun hf => h0 hf⟩

/-- Witness for C4: a site with cost 5 and an empty revenue table appears in
the output with revenue 0. -/
theorem cost_site_without_revenue_appears_witness :
    ∃ r ∈ finalRows sampleCosts [] 0 0 1 true,
      r.site_id = 1 ∧ r.cost = 5 ∧ r.revenue = 0 := by
  have h1 : spDay 20000 = 0 := by decide
  have hc : ((1 : Int), (5 : ℚ)) ∈ cost_sites sampleCosts 0 := by
    have : cost_sites sampleCosts 0 = [(1, 5)] := by
      norm_num [cost_sites, cost_latest, ts_cost_latest_sp, costSiteRecs, dedupKeys,
        listMax, h1, sampleCosts, COST_DIVISOR, List.filter, List.filterMap]
    rw [this]
    exact List.mem_singleton.mpr rfl
  exact cost_site_without_revenue_appears sampleCosts [] 0 0 1 true 1 5 hc
    (by simp) (by decide) (by norm_num)

/-- C6: the final result set is sorted by `revenue ASC, cost DESC`
(`rowLE`, spelled out in the second conjunct), and the post-processing of
`main` is exactly the site-0 filter followed by an element-wise rounding
map over those rows — a subsequence of the sorted output with rounding
applied row-wise, so the emitted order is the sorted order. -/
theorem output_sorted_and_order_preserved (costs : List CostRecord) (revs : List RevenueRecord)
    (yday startLb : Int) (maxRev : ℚ) (f0 : Bool) :
    List.Sorted rowLE (finalRows costs revs yday startLb maxRev f0) ∧
    (∀ a b : Row, rowLE a b ↔
      a.revenue < b.revenue ∨ (a.revenue = b.revenue ∧ b.cost ≤ a.cost)) ∧
    postProcess true (finalRows costs revs yday startLb maxRev f0) =
      ((finalRows costs revs yday startLb maxRev f0).filter
        (fun r => decide (r.site_id ≠ 0))).map roundRow ∧
    ((finalRows costs revs yday startLb maxRev f0).filter
      (fun r => decide (r.site_id ≠ 0))).Sublist
      (finalRows costs revs yday startLb maxRev f0) := by
  exact ⟨List.sorted_insertionSort rowLE _, fun a b => Iff.rfl,
    postProcess_eq_filter_map _, List.filter_sublist _⟩

/-- C8: the alert step never fails the run: `send_discord_alert` returns
normally for every webhook configuration and HTTP outcome (missing or empty
webhook is the logged no-op), and the tail of `main` always completes with
the CSV artifact in hand. -/
theorem notifier_never_fails_run (webhook : Option String) (response : HttpResult) :
    (∃ o, send_discord_alert webhook response = .ok o) ∧
    send_discord_alert none response = .ok .notConfigured ∧
    send_discord_alert (some "") response = .ok .notConfigured ∧
    ∀ rows : List Row, ∃ out, finishRun rows webhook response = .ok out := by
  have hsend : ∀ w, ∃ o, send_discord_alert w response = Except.ok o := by
    intro w
    unfold send_discord_alert requests_post
    split
    · exact ⟨.notConfigured, rfl⟩
    · cases response
      · exact ⟨.sent, rfl⟩
      · exact ⟨.failedLogged _, rfl⟩
  refine ⟨hsend webhook, by simp [send_discord_alert], by simp [send_discord_alert], ?_⟩
  intro rows
  obtain ⟨o, ho⟩ := hsend webhook
  simp only [finishRun, ho]
  split
  · exact ⟨_, rfl⟩
  · exact ⟨_, rfl⟩

/-- C9: when zero sites satisfy the filter the run still succeeds, the CSV
artifact contains only the header row, and no alert is attempted. -/
theorem empty_result_header_only_no_alert (costs : List CostRecord) (revs : List RevenueRecord)
    (yday startLb : Int) (maxRev : ℚ) (f0 : Bool)
    (webhook : Option String) (response : HttpResult)
    (h : finalRows costs revs yday startLb maxRev f0 = []) :
    finishRun (finalRows costs revs yday startLb maxRev f0) webhook response =
      .ok { csv := [csvHeader], alert := none } := by
  rw [h]
  rfl

/-- Witness for C9 on empty feeds. -/
theorem empty_result_header_only_no_alert_witness :
    finishRun (finalRows [] [] 0 0 1 true) none .ok =
      .ok { csv := [csvHeader], alert := none } :=
  empty_result_header_only_no_alert [] [] 0 0 1 true none .ok rfl

/-- C1 counterexample: with two same-date cost records for site 1 (5 at an
earlier timestamp, 7 at the day's latest timestamp), the emitted
`total_cost` is 7, whereas the claimed unconditional full-day sum is 12 —
the `cost_sites` CTE joins on the latest timestamp and hence does restrict
the cost sum. -/
theorem cost_full_day_sum_counterexample :
    runReport cexCostsTwoTs [] 1 =
      [{ site_id := 1, domain := "unknown", cost := 7, revenue := 0 }] ∧
    claimedFullDayCost cexCostsTwoTs 0 1 = 12 ∧
    ((7 : ℚ) ≠ 12) := by
  refine ⟨?_, ?_, by norm_num⟩
  · show finalRows cexCostsTwoTs [] (yesterdayOf 1) (lookbackStart 1 LOOKBACK_DAYS)
      MAX_REVENUE FILTER_SITE_ID0 = _
    norm_num [yesterdayOf, lookbackStart, LOOKBACK_DAYS, MAX_REVENUE, FILTER_SITE_ID0]
    exact eval_finalRows_twoTs
  · have h1 : spDay 20000 = 0 := by decide
    have h2 : spDay 30000 = 0 := by decide
    norm_num [claimedFullDayCost, cexCostsTwoTs, COST_DIVISOR, h1, h2, List.filter]

/-- C1 (amended): for every emitted row there is a latest same-date cost
timestamp `t` for that site, and `total_cost` is the sum of `metrics_cost`
(divided by the cost divisor) over only those same-date records of the site
whose timestamp equals `t` — not the unconditional full-day sum. -/
theorem final_cost_is_latest_timestamp_sum (costs : List CostRecord)
    (revs : List RevenueRecord) (yday startLb : Int) (maxRev : ℚ) (f0 : Bool) (r : Row)
    (hr : r ∈ finalRows costs revs yday startLb maxRev f0) :
    ∃ t, (∃ x ∈ costs, spDay x.timestamp = yday ∧ x.site_id = r.site_id ∧ x.timestamp = t) ∧
      (∀ y ∈ costs, spDay y.timestamp = yday → y.site_id = r.site_id → y.timestamp ≤ t) ∧
      r.cost = ((costs.filter (fun c =>
        decide (spDay c.timestamp = yday ∧ c.site_id = r.site_id ∧ c.timestamp = t))).map
        (·.metrics_cost)).sum / COST_DIVISOR := by
  obtain ⟨hw, -⟩ := mem_finalRows.mp hr
  obtain ⟨p, hp, hbuild⟩ := mem_with_domain.mp hw
  have hsid : r.site_id = p.1 := by rw [← hbuild, buildRow_site_id]
  have hcost : r.cost = p.2 := by rw [← hbuild, buildRow_cost]
  obtain ⟨⟨x0, hx0, hx0d, hx0s⟩, hceq, -⟩ :=
    mem_cost_sites.mp (show (p.1, p.2) ∈ cost_sites costs yday by rw [Prod.mk.eta]; exact hp)
  have hne : costSiteRecs costs yday p.1 ≠ [] :=
    List.ne_nil_of_mem (mem_costSiteRecs.mpr ⟨hx0, hx0d, hx0s⟩)
  obtain ⟨t, ⟨xm, hxm, hxmt⟩, hbound, hsum⟩ := cost_latest_spec hne
  obtain ⟨hxm_mem, hxm_day, hxm_sid⟩ := mem_costSiteRecs.mp hxm
  refine ⟨t, ⟨xm, hxm_mem, hxm_day, by rw [hsid]; exact hxm_sid, hxmt⟩, ?_, ?_⟩
  · intro y hy hyd hys
    exact hbound y (mem_costSiteRecs.mpr ⟨hy, hyd, by rw [← hsid]; exact hys⟩)
  · rw [hsid, hcost, hceq, hsum, costSiteRecs_filter_ts]

/-- Witness for the amended C1 on `cexCostsTwoTs`: the emitted row has cost
7, the latest-timestamp sum. -/
theorem final_cost_is_latest_timestamp_sum_witness :
    ∃ t, (∃ x ∈ cexCostsTwoTs, spDay x.timestamp = 0 ∧ x.site_id = 1 ∧ x.timestamp = t) ∧
      (∀ y ∈ cexCostsTwoTs, spDay y.timestamp = 0 → y.site_id = 1 → y.timestamp ≤ t) ∧
      (7 : ℚ) = ((cexCostsTwoTs.filter (fun c =>
        decide (spDay c.timestamp = 0 ∧ c.site_id = 1 ∧ c.timestamp = t))).map
        (·.metrics_cost)).sum / COST_DIVISOR :=
  final_cost_is_latest_timestamp_sum cexCostsTwoTs [] 0 0 1 true
    { site_id := 1, domain := "unknown", cost := 7, revenue := 0 }
    (by rw [eval_finalRows_twoTs]; exact List.mem_singleton.mpr rfl)

/-- C2: for every emitted row of a site having at least one revenue record
on the reporting date, there is `ts_max`, the maximum same-date revenue
timestamp of the site, and `total_revenue` is the sum of the revenue
amounts (divided by the revenue divisor) over exactly the records whose
timestamp equals `ts_max`; earlier records contribute nothing. -/
theorem final_revenue_is_latest_timestamp_sum (costs : List CostRecord)
    (revs : List RevenueRecord) (yday startLb : Int) (maxRev : ℚ) (f0 : Bool) (r : Row)
    (hr : r ∈ finalRows costs revs yday startLb maxRev f0)
    (hrev : ∃ x ∈ revs, x.date = yday ∧ x.site_id = r.site_id) :
    ∃ t, (∃ x ∈ revs, x.date = yday ∧ x.site_id = r.site_id ∧ x.timestamp = t) ∧
      (∀ y ∈ revs, y.date = yday → y.site_id = r.site_id → y.timestamp ≤ t) ∧
      r.revenue = ((revs.filter (fun x =>
        decide (x.date = yday ∧ x.site_id = r.site_id ∧ x.timestamp = t))).map
        (·.ad_exchange_line_item_level_revenue)).sum / REVENUE_DIVISOR := by
  obtain ⟨hw, -⟩ := mem_finalRows.mp hr
  obtain ⟨p, hp, hbuild⟩ := mem_with_domain.mp hw
  have hsid : r.site_id = p.1 := by rw [← hbuild, buildRow_site_id]
  have hne : revSiteRecs revs yday p.1 ≠ [] := by
    rw [Ne, revSiteRecs_eq_nil]
    push_neg
    obtain ⟨x, hx, hd, hs⟩ := hrev
    exact ⟨x, hx, hd, by rw [← hsid]; exact hs⟩
  have hsome : revenue_site revs yday p.1 ≠ none := by
    rw [Ne, revenue_site_eq_none]
    exact hne
  obtain ⟨dv, hdv⟩ := Option.ne_none_iff_exists'.mp hsome
  obtain ⟨d, v⟩ := dv
  obtain ⟨t, ⟨x, hx_recs, hx_ts, -⟩, hbound, hv⟩ := revenue_site_eq_some hdv
  obtain ⟨hx_mem, hx_day, hx_sid⟩ := mem_revSiteRecs.mp hx_recs
  have hrrev : r.revenue = v := by
    rw [← hbuild, buildRow_revenue, hdv]
    rfl
  refine ⟨t, ⟨x, hx_mem, hx_day, by rw [hsid]; exact hx_sid, hx_ts⟩, ?_, ?_⟩
  · intro y hy hyd hys
    exact hbound y (mem_revSiteRecs.mpr ⟨hy, hyd, by rw [← hsid]; exact hys⟩)
  · rw [hsid, hrrev, hv, revSiteRecs_filter_ts]

/-- Witness for C2 on `sampleRevsLatest`: the emitted revenue is 0.5, the
sum of the two records at the latest timestamp 200; the earlier record at
timestamp 100 contributes nothing. -/
theorem final_revenue_is_latest_timestamp_sum_witness :
    ∃ t, (∃ x ∈ sampleRevsLatest, x.date = 0 ∧ x.site_id = 1 ∧ x.timestamp = t) ∧
      (∀ y ∈ sampleRevsLatest, y.date = 0 → y.site_id = 1 → y.timestamp ≤ t) ∧
      (1/2 : ℚ) = ((sampleRevsLatest.filter (fun x =>
        decide (x.date = 0 ∧ x.site_id = 1 ∧ x.timestamp = t))).map
        (·.ad_exchange_line_item_level_revenue)).sum / REVENUE_DIVISOR :=
  final_revenue_is_latest_timestamp_sum sampleCosts sampleRevsLatest 0 0 1 true
    { site_id := 1, domain := "b", cost := 5, revenue := 1/2 }
    (by rw [eval_finalRows_sampleLatest]; exact List.mem_singleton.mpr rfl)
    ⟨⟨1, 0, 100, "a", 200000⟩, by simp [sampleRevsLatest], rfl, rfl⟩

/-- C5: for every emitted row, the domain obeys the precedence chain —
when the `revenue_sites` lookup hits (exactly when the site has a same-date
revenue record), its domain (observed at the latest same-date timestamp) is
used and the fallback is ignored; otherwise a hit in the lookback fallback
is used; otherwise the literal `"unknown"`. -/
theorem domain_resolution_precedence (costs : List CostRecord) (revs : List RevenueRecord)
    (yday startLb : Int) (maxRev : ℚ) (f0 : Bool) (r : Row)
    (hr : r ∈ finalRows costs revs yday startLb maxRev f0) :
    (∀ d v, revenue_site revs yday r.site_id = some (d, v) → r.domain = d) ∧
    (revenue_site revs yday r.site_id = none →
      ∀ d, domain_recent revs startLb yday r.site_id = some d → r.domain = d) ∧
    (revenue_site revs yday r.site_id = none →
      domain_recent revs startLb yday r.site_id = none → r.domain = "unknown") ∧
    (revenue_site revs yday r.site_id = none ↔
      ∀ x ∈ revs, ¬(x.date = yday ∧ x.site_id = r.site_id)) ∧
    (∀ d v, revenue_site revs yday r.site_id = some (d, v) →
      ∃ x ∈ revs, x.date = yday ∧ x.site_id = r.site_id ∧ x.domain = d ∧
        ∀ y ∈ revs, y.date = yday → y.site_id = r.site_id → y.timestamp ≤ x.timestamp) := by
  obtain ⟨hw, -⟩ := mem_finalRows.mp hr
  obtain ⟨p, hp, hbuild⟩ := mem_with_domain.mp hw
  have hsid : r.site_id = p.1 := by rw [← hbuild, buildRow_site_id]
  rw [hsid]
  have hdom : r.domain = ((revenue_site revs yday p.1).map Prod.fst).getD
      ((domain_recent revs startLb yday p.1).getD "unknown") := by
    rw [← hbuild, buildRow_domain]
  refine ⟨?_, ?_, ?_, ?_, ?_⟩
  · intro d v hdv
    rw [hdom, hdv]
    rfl
  · intro hnone d hd
    rw [hdom, hnone, hd]
    rfl
  · intro hnone hdnone
    rw [hdom, hnone, hdnone]
    rfl
  · rw [revenue_site_eq_none, revSiteRecs_eq_nil]
  · intro d v hdv
    obtain ⟨t, ⟨x, hx_recs, hx_ts, hx_dom⟩, hbound, -⟩ := revenue_site_eq_some hdv
    obtain ⟨hx_mem, hx_day, hx_sid⟩ := mem_revSiteRecs.mp hx_recs
    refine ⟨x, hx_mem, hx_day, hx_sid, hx_dom, ?_⟩
    intro y hy hyd hys
    rw [hx_ts]
    exact hbound y (mem_revSiteRecs.mpr ⟨hy, hyd, hys⟩)

/-- Witness for C5 on `sampleRevsLatest`: the same-date lookup hits with
domain `"b"` (a latest-timestamp row), and the emitted row carries it. -/
theorem domain_resolution_precedence_witness :
    revenue_site sampleRevsLatest 0 1 = some ("b", 1/2) ∧
    ({ site_id := 1, domain := "b", cost := 5, revenue := 1/2 } : Row).domain = "b" := by
  have hsome : revenue_site sampleRevsLatest 0 1 = some ("b", 1/2) := by
    norm_num [revenue_site, ts_rev_latest_sp, revSiteRecs, argMaxBy, listMax,
      sampleRevsLatest, REVENUE_DIVISOR, List.filter]
  have hmem : ({ site_id := 1, domain := "b", cost := 5, revenue := 1/2 } : Row) ∈
      finalRows sampleCosts sampleRevsLatest 0 0 1 true := by
    rw [eval_finalRows_sampleLatest]
    exact List.mem_singleton.mpr rfl
  exact ⟨hsome,
    (domain_resolution_precedence sampleCosts sampleRevsLatest 0 0 1 true _ hmem).1
      "b" (1/2) hsome⟩

/-- C7 counterexample: with `today = 1` (reporting date 0) and the default
`LOOKBACK_DAYS = 1`, a revenue record dated `-1` — inside the claimed
window `[report_date - lookback_days, report_date]` — is not scanned by
the script's fallback (`start_lb = today - LOOKBACK_DAYS` is the reporting
date itself), so the emitted domain is `"unknown"` while the claimed
window would have produced `"olddomain"`. -/
theorem fallback_window_counterexample :
    runReport sampleCosts cexRevsPriorDay 1 =
      [{ site_id := 1, domain := "unknown", cost := 5, revenue := 0 }] ∧
    domain_recent cexRevsPriorDay (lookbackStart 1 LOOKBACK_DAYS) (yesterdayOf 1) 1 = none ∧
    claimedFallbackWindowDomain cexRevsPriorDay (yesterdayOf 1) LOOKBACK_DAYS 1 =
      some "olddomain" := by
  refine ⟨?_, ?_, ?_⟩
  · show finalRows sampleCosts cexRevsPriorDay (yesterdayOf 1) (lookbackStart 1 LOOKBACK_DAYS)
      MAX_REVENUE FILTER_SITE_ID0 = _
    norm_num [yesterdayOf, lookbackStart, LOOKBACK_DAYS, MAX_REVENUE, FILTER_SITE_ID0]
    exact eval_finalRows_priorDay
  · norm_num [domain_recent, argMaxBy, cexRevsPriorDay, lookbackStart, yesterdayOf,
      LOOKBACK_DAYS, List.filter]
  · norm_num [claimedFallbackWindowDomain, argMaxBy, cexRevsPriorDay, yesterdayOf,
      LOOKBACK_DAYS, List.filter]

/-- C7 (amended): the fallback resolver scans revenue records dated between
`today - lookback_days` and the reporting date `today - 1` inclusive —
that is, between `report_date - (lookback_days - 1)` and `report_date` —
and with the default `LOOKBACK_DAYS = 1` the window is exactly the
reporting date itself, including no prior day. -/
theorem fallback_window_bounds (revs : List RevenueRecord) (today sid : Int) :
    (∀ L, domain_recent revs (lookbackStart today L) (yesterdayOf today) sid =
      (argMaxBy (·.timestamp) (revs.filter (fun r =>
        decide (r.site_id = sid ∧ today - L ≤ r.date ∧ r.date ≤ today - 1)))).map
        (·.domain)) ∧
    domain_recent revs (lookbackStart today LOOKBACK_DAYS) (yesterdayOf today) sid =
      (argMaxBy (·.timestamp) (revs.filter (fun r =>
        decide (r.site_id = sid ∧ r.date = today - 1)))).map (·.domain) := by
  constructor
  · intro L
    rfl
  · rw [domain_recent]
    have hfil : revs.filter (fun r =>
        decide (r.site_id = sid ∧ lookbackStart today LOOKBACK_DAYS ≤ r.date ∧
          r.date ≤ yesterdayOf today)) =
        revs.filter (fun r => decide (r.site_id = sid ∧ r.date = today - 1)) := by
      apply List.filter_congr
      intro a _
      apply decide_eq_decide.mpr
      unfold lookbackStart yesterdayOf LOOKBACK_DAYS
      constructor
      · rintro ⟨hs, hl, hr⟩
        exact ⟨hs, le_antisymm hr hl⟩
      · rintro ⟨hs, he⟩
        exact ⟨hs, le_of_eq he.symm, le_of_eq he⟩
    rw [hfil]

/-- C10: the filter runs on unrounded sums and rounding happens only
afterwards: on a cost feed whose full aggregate is 0.004, the row survives
the `cost > 0` filter and the emitted artifact displays a cost rounded to
0.00 even though the unrounded cost is strictly positive. -/
theorem filter_before_rounding_concrete :
    finalRows cexCostsTiny [] 0 0 1 true =
      [{ site_id := 1, domain := "unknown", cost := 1/250, revenue := 0 }] ∧
    ((0 : ℚ) < 1/250) ∧
    postProcess FILTER_SITE_ID0 (finalRows cexCostsTiny [] 0 0 1 true) =
      [{ site_id := 1, domain := "unknown", cost := 0, revenue := 0 }] ∧
    roundTo 2 ((1:ℚ)/250) = 0 := by
  have hround : roundTo 2 ((1:ℚ)/250) = 0 := by
    norm_num [roundTo, roundHE]
  have hround0 : roundTo 6 (0:ℚ) = 0 := by
    norm_num [roundTo, roundHE]
  refine ⟨eval_finalRows_tiny, by norm_num, ?_, hround⟩
  show postProcess true _ = _
  rw [postProcess_eq_filter_map, eval_finalRows_tiny]
  norm_num [roundRow, hround, hround0, List.filter]

end Claims

end Alertas
